import Mathlib

/-!
Verification of the AES Drive decryptor (janiko71/aesdrive-decryptor).

Shallow embedding of the core pipeline: header parsing and CRC32 validation
(res/aes_date_file.py and the variant in src/aes_decryptor.py of the src
subdirectory), key derivation (derive_keys), authenticated sub-header
decryption (decrypt_header / parse_decrypted_header) and the three
sector-by-sector XTS decryption loops (AESDecryptor.decrypt_file_data,
AESDecryptor._decrypt_content, AESDecryptor._decrypt_file_data).

Bytes are modelled as natural numbers below 256 in lists; the cryptographic
library primitives (PBKDF2-HMAC-SHA512, SHA-512, AES-GCM, AES-XTS), which the
program calls from the python cryptography package, are modelled as abstract
functions collected in a CryptoBackend record.  Loops are embedded with an
explicit fuel argument equal to the number of remaining payload bytes, which
bounds the number of iterations of the python while loops.
-/

set_option maxRecDepth 100000

namespace AESDrive

/-- bytes[a:b] slicing as in python (for 0 <= a <= b). -/
def slice (a b : Nat) (l : List Nat) : List Nat :=
  (l.drop a).take (b - a)

/-- int.to_bytes(len, byteorder="little"): little-endian byte encoding. -/
def toBytesLE : Nat → Nat → List Nat
  | _, 0 => []
  | n, len + 1 => n % 256 :: toBytesLE (n / 256) len

/-- int.to_bytes(len, byteorder="big"): big-endian byte encoding. -/
def toBytesBE (n len : Nat) : List Nat :=
  (toBytesLE n len).reverse

/-- int.from_bytes(bs, byteorder="big") for unsigned bytes. -/
def beBytesToNat (l : List Nat) : Nat :=
  l.foldl (fun acc b => acc * 256 + b) 0

/-- int.from_bytes(bs, byteorder="big", signed=True): twos-complement. -/
def beBytesToIntSigned (l : List Nat) : Int :=
  let n := beBytesToNat l
  if n < 2 ^ (8 * l.length - 1) then (n : Int) else (n : Int) - 2 ^ (8 * l.length)

/-- Bitwise exclusive or computed bit by bit with explicit fuel (one unit per
bit).  Agrees with machine xor on inputs below 2^fuel; written this way, by
structural recursion over plain arithmetic, so that concrete CRC values can
be evaluated by kernel reduction. -/
def xorBits : Nat → Nat → Nat → Nat
  | 0, _, _ => 0
  | fuel + 1, a, b => (a + b) % 2 + 2 * xorBits fuel (a / 2) (b / 2)

/-- Exclusive or of two 32-bit words, as the C uint32 xor used by zlib. -/
def xor32 (a b : Nat) : Nat :=
  xorBits 32 a b

/-- One shift-xor step of the reflected CRC-32 computation (polynomial
0xEDB88320), as performed by binascii.crc32 / zlib. -/
def crc32Bit (c : Nat) : Nat :=
  if c % 2 = 1 then xor32 (c / 2) 0xEDB88320 else c / 2

/-- Iterate the CRC-32 bit step. -/
def crc32Bits : Nat → Nat → Nat
  | 0, c => c
  | n + 1, c => crc32Bits n (crc32Bit c)

/-- Fold one data byte into the CRC-32 state. -/
def crc32Byte (c b : Nat) : Nat :=
  crc32Bits 8 (xor32 c b)

/-- binascii.crc32(data): standard CRC-32 with initial and final xor. -/
def crc32 (data : List Nat) : Nat :=
  xor32 (data.foldl crc32Byte 0xFFFFFFFF) 0xFFFFFFFF

/-- One hex digit as its lowercase ASCII code (as binascii.hexlify emits). -/
def hexDigit (n : Nat) : Nat :=
  if n < 10 then 48 + n else 87 + n

/-- binascii.hexlify(bs): ASCII codes of the lowercase hex expansion. -/
def hexlify (l : List Nat) : List Nat :=
  l.foldr (fun b acc => hexDigit (b / 16) :: hexDigit (b % 16) :: acc) []

/-- A UTF-8 continuation byte (0x80-0xBF). -/
def isCont (b : Nat) : Prop := 128 ≤ b ∧ b < 192

instance (b : Nat) : Decidable (isCont b) := by
  unfold isCont; infer_instance

/-- Strict UTF-8 decoding to a list of code points, as bytes.decode("utf-8")
performs in python: rejects stray continuation bytes, overlong encodings,
surrogates and code points above U+10FFFF. -/
def utf8Decode : List Nat → Option (List Nat)
  | [] => some []
  | b :: rest =>
    if b < 128 then (utf8Decode rest).map (fun cps => b :: cps)
    else if b < 194 then none
    else if b < 224 then
      match rest with
      | b1 :: rest2 =>
        if isCont b1 then
          (utf8Decode rest2).map (fun cps => ((b - 192) * 64 + (b1 - 128)) :: cps)
        else none
      | [] => none
    else if b < 240 then
      match rest with
      | b1 :: b2 :: rest2 =>
        if (if b = 224 then 160 ≤ b1 ∧ b1 < 192
            else if b = 237 then 128 ≤ b1 ∧ b1 < 160
            else isCont b1) ∧ isCont b2 then
          (utf8Decode rest2).map
            (fun cps => ((b - 224) * 4096 + (b1 - 128) * 64 + (b2 - 128)) :: cps)
        else none
      | _ => none
    else if b < 245 then
      match rest with
      | b1 :: b2 :: b3 :: rest2 =>
        if (if b = 240 then 144 ≤ b1 ∧ b1 < 192
            else if b = 244 then 128 ≤ b1 ∧ b1 < 144
            else isCont b1) ∧ isCont b2 ∧ isCont b3 then
          (utf8Decode rest2).map
            (fun cps =>
              ((b - 240) * 262144 + (b1 - 128) * 4096 + (b2 - 128) * 64 + (b3 - 128)) :: cps)
        else none
      | _ => none
    else none

/-- Error outcomes of AESDataFile construction.  badLength, badMagic and
checksumMismatch correspond to the three AESDataFileError raises in
res/aes_date_file.py; unicodeDecodeError models the UnicodeDecodeError that
header[0:4].decode("utf-8") raises on invalid UTF-8, which escapes the
module's structured error type. -/
inductive ParseError
  | badLength
  | unicodeDecodeError
  | badMagic
  | checksumMismatch
deriving DecidableEq, Repr

/-- The fields AESDataFile (res/aes_date_file.py) stores after parsing:
file_type as decoded code points, crc32_checksum as hexlified ASCII. -/
structure DataFileRec where
  fileType : List Nat
  fileTypeVersion : Nat
  reserved1 : List Nat
  crc32ChecksumHex : List Nat
  globalSalt : List Nat
  fileSalt : List Nat
  aesGcmHeader : List Nat
  aesGcmAuthTag : List Nat
deriving DecidableEq, Repr

/-- Code points of the expected magic string "AESD". -/
def magicCodepoints : List Nat := [65, 69, 83, 68]

/-- AESDataFile.__init__ / _parse_header / _validate_checksum from
res/aes_date_file.py: length check, UTF-8 decode of the magic, magic
comparison, then CRC32 of the header with the checksum field zeroed,
compared in hexlified form against the stored field. -/
def parseHeader (header : List Nat) : Except ParseError DataFileRec :=
  if header.length ≠ 144 then .error .badLength
  else
    match utf8Decode (header.take 4) with
    | none => .error .unicodeDecodeError
    | some fileType =>
      if fileType ≠ magicCodepoints then .error .badMagic
      else
        let crcChecksumHex := hexlify (slice 12 16 header)
        let headerForChecksum := header.take 12 ++ [0, 0, 0, 0] ++ header.drop 16
        let calculatedHex := hexlify (toBytesBE (crc32 headerForChecksum) 4)
        if calculatedHex ≠ crcChecksumHex then .error .checksumMismatch
        else
          .ok { fileType := fileType
                fileTypeVersion := header.getD 4 0
                reserved1 := slice 5 12 header
                crc32ChecksumHex := crcChecksumHex
                globalSalt := slice 16 32 header
                fileSalt := slice 32 48 header
                aesGcmHeader := slice 48 128 header
                aesGcmAuthTag := slice 128 144 header }

/-- The fields AESDataFile (src/aes_decryptor.py of the src subdirectory)
stores: crc32_checksum kept as the raw bytes h[12:16]. -/
structure DataFileRecSrc where
  fileType : List Nat
  fileTypeVersion : Nat
  reserved1 : List Nat
  crc32Checksum : List Nat
  globalSalt : List Nat
  fileSalt : List Nat
  aesGcmHeader : List Nat
  aesGcmAuthTag : List Nat
deriving DecidableEq, Repr

/-- AESDataFile._parse_header / _verify_checksum from src/aes_decryptor.py of
the src subdirectory: same layout, but the checksum comparison reads the
stored field with int.from_bytes(..., "big", signed=True) and compares it
with the unsigned binascii.crc32 result. -/
def parseHeaderSrc (header : List Nat) : Except ParseError DataFileRecSrc :=
  if header.length ≠ 144 then .error .badLength
  else
    match utf8Decode (header.take 4) with
    | none => .error .unicodeDecodeError
    | some fileType =>
      if fileType ≠ magicCodepoints then .error .badMagic
      else
        let headerCopy := header.take 12 ++ [0, 0, 0, 0] ++ header.drop 16
        let calculatedCrc : Int := crc32 headerCopy
        let expectedCrc : Int := beBytesToIntSigned (slice 12 16 header)
        if calculatedCrc ≠ expectedCrc then .error .checksumMismatch
        else
          .ok { fileType := fileType
                fileTypeVersion := header.getD 4 0
                reserved1 := slice 5 12 header
                crc32Checksum := slice 12 16 header
                globalSalt := slice 16 32 header
                fileSalt := slice 32 48 header
                aesGcmHeader := slice 48 128 header
                aesGcmAuthTag := slice 128 144 header }

/-- The cryptographic primitives the program obtains from the python
cryptography library, modelled abstractly: PBKDF2-HMAC-SHA512 (password,
salt, iteration count, output length), SHA-512, AES-GCM decryption (key,
nonce, ciphertext-with-appended-tag, none on InvalidTag), and AES-XTS
decryption of one sector (64-byte key, 16-byte tweak, sector bytes). -/
structure CryptoBackend where
  pbkdf2HmacSha512 : List Nat → List Nat → Nat → Nat → List Nat
  sha512 : List Nat → List Nat
  aesgcmDecrypt : List Nat → List Nat → List Nat → Option (List Nat)
  xtsDecrypt : List Nat → List Nat → List Nat → List Nat

/-- KDF_ITERATIONS = 50000 in aesdecryptor.py and res/config.py. -/
def KDF_ITERATIONS : Nat := 50000

/-- AESDecryptor.derive_keys (aesdecryptor.py) / _derive_keys
(aes_decryptor.py): PBKDF2 over the password with the global salt, then
SHA-512 of file_salt ++ derived key; the header key is digest bytes [0:32]
and the IV is digest bytes [32:44]. -/
def derive_keys (B : CryptoBackend) (password globalSalt fileSalt : List Nat)
    (iterations : Nat) : List Nat × List Nat :=
  let pwdDerivedKey := B.pbkdf2HmacSha512 password globalSalt iterations 32
  let fileSeed := fileSalt ++ pwdDerivedKey
  let fileKeyHash := B.sha512 fileSeed
  (slice 0 32 fileKeyHash, slice 32 44 fileKeyHash)

/-- Modelled from the spec: the stage-1 contract deriveHeaderKeyAndIV, as
the spec words it — hash the concatenation file_salt ++ password_derived_key
(salt first) with a 512-bit hash; header key = digest bytes [0:32], IV =
digest bytes [32:44].  Stated separately so that the source translation
derive_keys can be proved to refine it. -/
def deriveHeaderKeyAndIV_spec (B : CryptoBackend)
    (password globalSalt fileSalt : List Nat) (iterations : Nat) :
    List Nat × List Nat :=
  let digest := B.sha512 (fileSalt ++ B.pbkdf2HmacSha512 password globalSalt iterations 32)
  ((digest.drop 0).take 32, (digest.drop 32).take 12)

/-- Error outcomes of a decrypt run: structural format errors from header
parsing, and the InvalidTag authentication failure (the wrong-password
signal). -/
inductive DecryptError
  | format (e : ParseError)
  | invalidTag
deriving DecidableEq, Repr

/-- AESDecryptor.decrypt_header (aesdecryptor.py): AES-GCM decryption of the
80-byte encrypted sub-header concatenated with its 16-byte tag, with no
associated data; InvalidTag becomes the wrong-password error. -/
def decrypt_header (B : CryptoBackend) (headerKey iv gcmHeader gcmTag : List Nat) :
    Except DecryptError (List Nat) :=
  match B.aesgcmDecrypt headerKey iv (gcmHeader ++ gcmTag) with
  | none => .error .invalidTag
  | some decryptedHeader => .ok decryptedHeader

/-- AESDecryptor.parse_decrypted_header (aesdecryptor.py): padding length as
big-endian 16-bit integer at [0:2], the two XTS sub-keys at [16:48] and
[48:80]. -/
def parse_decrypted_header (decryptedHeader : List Nat) :
    Nat × List Nat × List Nat :=
  (beBytesToNat (slice 0 2 decryptedHeader),
   slice 16 48 decryptedHeader,
   slice 48 80 decryptedHeader)

/-- SECTOR_LENGTH = 512. -/
def SECTOR_LENGTH : Nat := 512

/-- HEADER_LENGTH = 144. -/
def HEADER_LENGTH : Nat := 144

/-- Fuel-bounded body of the while loop of AESDecryptor.decrypt_file_data
(aesdecryptor.py, lines 348-367).  The payload list models the unread rest
of the input file; each iteration reads up to 512 bytes, decrypts them with
the tweak current_sector_offset.to_bytes(16, "little"), and either emits the
whole decrypted sector or, once byte_offset exceeds file_length, emits the
first file_length mod 512 bytes and stops.  Alongside the emitted bytes, the
list of (tweak, chunk) pairs passed to the cipher is returned.  The fuel
only bounds the iteration count; it is set to the payload length by the
wrapper below, which the loop never exhausts because each iteration consumes
at least one payload byte. -/
def decryptLoop1 (B : CryptoBackend) (xtsKey : List Nat) (fileLength : Int) :
    Nat → List Nat → Nat → Int → List Nat × List (List Nat × List Nat)
  | 0, _, _, _ => ([], [])
  | fuel + 1, payload, currentSectorOffset, byteOffset =>
    if payload = [] then ([], [])
    else
      let chunk := payload.take SECTOR_LENGTH
      let tweak := toBytesLE currentSectorOffset 16
      let decryptedChunk := B.xtsDecrypt xtsKey tweak chunk
      let byteOffset2 := byteOffset + (SECTOR_LENGTH : Int)
      if byteOffset2 > fileLength then
        let lastBlockLength := fileLength % (SECTOR_LENGTH : Int)
        (decryptedChunk.take lastBlockLength.toNat, [(tweak, chunk)])
      else
        let r := decryptLoop1 B xtsKey fileLength fuel (payload.drop SECTOR_LENGTH)
          (currentSectorOffset + 1) byteOffset2
        (decryptedChunk ++ r.1, (tweak, chunk) :: r.2)

/-- AESDecryptor.decrypt_file_data (aesdecryptor.py): run the sector loop on
the whole remaining payload, starting at sector 0 and byte offset 0 as the
source does. -/
def decrypt_file_data (B : CryptoBackend) (xtsKey : List Nat) (fileLength : Int)
    (payload : List Nat) (currentSectorOffset : Nat) (byteOffset : Int) :
    List Nat × List (List Nat × List Nat) :=
  decryptLoop1 B xtsKey fileLength payload.length payload currentSectorOffset byteOffset

/-- Fuel-bounded body of the while loop of AESDecryptor._decrypt_content
(aes_decryptor.py, lines 208-233): loops while bytes_processed < file_length,
reads a sector, decrypts it with the little-endian sector tweak, emits the
whole sector unless fewer than 512 bytes remain to reach file_length, in
which case it emits exactly the remaining count and stops. -/
def decryptLoop2 (B : CryptoBackend) (xtsKey : List Nat) (fileLength : Int) :
    Nat → List Nat → Nat → Int → List Nat × List (List Nat × List Nat)
  | 0, _, _, _ => ([], [])
  | fuel + 1, payload, currentSector, bytesProcessed =>
    if bytesProcessed < fileLength then
      if payload = [] then ([], [])
      else
        let chunk := payload.take SECTOR_LENGTH
        let tweak := toBytesLE currentSector 16
        let decryptedChunk := B.xtsDecrypt xtsKey tweak chunk
        let remainingBytes := fileLength - bytesProcessed
        if remainingBytes < (SECTOR_LENGTH : Int) then
          (decryptedChunk.take remainingBytes.toNat, [(tweak, chunk)])
        else
          let r := decryptLoop2 B xtsKey fileLength fuel (payload.drop SECTOR_LENGTH)
            (currentSector + 1) (bytesProcessed + (SECTOR_LENGTH : Int))
          (decryptedChunk ++ r.1, (tweak, chunk) :: r.2)
    else ([], [])

/-- AESDecryptor._decrypt_content (aes_decryptor.py), from the stream
position after the header, starting at sector 0 with 0 bytes processed. -/
def decrypt_content (B : CryptoBackend) (xtsKey : List Nat) (fileLength : Int)
    (payload : List Nat) (currentSector : Nat) (bytesProcessed : Int) :
    List Nat × List (List Nat × List Nat) :=
  decryptLoop2 B xtsKey fileLength payload.length payload currentSector bytesProcessed

/-- Fuel-bounded body of the while loop of AESDecryptor._decrypt_file_data
(src/aes_decryptor.py of the src subdirectory, lines 318-352): loops while
bytes_written < file_length, decrypts a sector with the little-endian sector
tweak and writes min(len(decrypted_chunk), file_length - bytes_written)
bytes of it. -/
def decryptLoop3 (B : CryptoBackend) (xtsKey : List Nat) (fileLength : Int) :
    Nat → List Nat → Nat → Int → List Nat × List (List Nat × List Nat)
  | 0, _, _, _ => ([], [])
  | fuel + 1, payload, currentSector, bytesWritten =>
    if bytesWritten < fileLength then
      if payload = [] then ([], [])
      else
        let chunk := payload.take SECTOR_LENGTH
        let tweak := toBytesLE currentSector 16
        let decryptedChunk := B.xtsDecrypt xtsKey tweak chunk
        let remainingBytes := fileLength - bytesWritten
        let bytesToWrite := min (decryptedChunk.length : Int) remainingBytes
        let r := decryptLoop3 B xtsKey fileLength fuel (payload.drop SECTOR_LENGTH)
          (currentSector + 1) (bytesWritten + bytesToWrite)
        (decryptedChunk.take bytesToWrite.toNat ++ r.1, (tweak, chunk) :: r.2)
    else ([], [])

/-- AESDecryptor._decrypt_file_data (src/aes_decryptor.py of the src
subdirectory), from the stream position after the header, starting at sector
0 with 0 bytes written. -/
def decrypt_file_data_src (B : CryptoBackend) (xtsKey : List Nat) (fileLength : Int)
    (payload : List Nat) (currentSector : Nat) (bytesWritten : Int) :
    List Nat × List (List Nat × List Nat) :=
  decryptLoop3 B xtsKey fileLength payload.length payload currentSector bytesWritten

/-- Fuel-bounded concatenation of all sectors of a payload decrypted
independently, sector i with tweak i (little-endian): the reference stream
against which the truncating loops are compared. -/
def sectorsFromAux (B : CryptoBackend) (xtsKey : List Nat) :
    Nat → List Nat → Nat → List Nat
  | 0, _, _ => []
  | fuel + 1, payload, sector =>
    if payload = [] then []
    else
      B.xtsDecrypt xtsKey (toBytesLE sector 16) (payload.take SECTOR_LENGTH) ++
        sectorsFromAux B xtsKey fuel (payload.drop SECTOR_LENGTH) (sector + 1)

/-- Full sector-wise decryption of a payload with no truncation. -/
def sectorsDecryptFrom (B : CryptoBackend) (xtsKey : List Nat)
    (payload : List Nat) (sector : Nat) : List Nat :=
  sectorsFromAux B xtsKey payload.length payload sector

/-- The values a successful run of AESDecryptor.decrypt_file (aesdecryptor.py)
computes: the decrypted sub-header, the padding length parsed from it, the
expected data length file_length, and the plaintext written to the output
file. -/
structure DecryptResult where
  subHeader : List Nat
  paddingLength : Nat
  fileLength : Int
  plaintext : List Nat
deriving DecidableEq, Repr

/-- AESDecryptor.decrypt_file (aesdecryptor.py, lines 375-439): read the
144-byte header, parse it (DataFile), derive the header key and IV from the
password and the salts, decrypt the sub-header with AES-GCM, parse padding
length and the two XTS sub-keys, compute file_length = file size - 144 -
padding_length, and run the sector decryption loop on the remaining payload
with the concatenated 64-byte XTS key. -/
def decrypt_file (B : CryptoBackend) (fileBytes password : List Nat) :
    Except DecryptError DecryptResult :=
  let fileHeader := fileBytes.take HEADER_LENGTH
  match parseHeader fileHeader with
  | .error e => .error (.format e)
  | .ok dataFile =>
    let keys := derive_keys B password dataFile.globalSalt dataFile.fileSalt KDF_ITERATIONS
    match B.aesgcmDecrypt keys.1 keys.2 (dataFile.aesGcmHeader ++ dataFile.aesGcmAuthTag) with
    | none => .error .invalidTag
    | some decryptedHeader =>
      let parsed := parse_decrypted_header decryptedHeader
      let paddingLength := parsed.1
      let xtsKey1 := parsed.2.1
      let xtsKey2 := parsed.2.2
      let fileLength : Int := (fileBytes.length : Int) - (HEADER_LENGTH : Int) - (paddingLength : Int)
      let r := decrypt_file_data B (xtsKey1 ++ xtsKey2) fileLength
        (fileBytes.drop HEADER_LENGTH) 0 0
      .ok { subHeader := decryptedHeader
            paddingLength := paddingLength
            fileLength := fileLength
            plaintext := r.1 }

/-! ### Loop infrastructure: the fuel argument is irrelevant as soon as it
dominates the payload length, so the wrappers satisfy the natural one-step
unfolding equations of the python while loops. -/

theorem decryptLoop1_fuel (B : CryptoBackend) (xtsKey : List Nat) (fileLength : Int) :
    ∀ fuel1 fuel2 payload sector byteOffset,
      payload.length ≤ fuel1 → payload.length ≤ fuel2 →
      decryptLoop1 B xtsKey fileLength fuel1 payload sector byteOffset =
        decryptLoop1 B xtsKey fileLength fuel2 payload sector byteOffset := by
  intro fuel1
  induction fuel1 with
  | zero =>
      intro fuel2 payload sector byteOffset h1 h2
      have hp : payload = [] := List.length_eq_zero.mp (Nat.le_zero.mp h1)
      subst hp
      cases fuel2 <;> simp [decryptLoop1]
  | succ f ih =>
      intro fuel2 payload sector byteOffset h1 h2
      by_cases hp : payload = []
      · subst hp; cases fuel2 <;> simp [decryptLoop1]
      · have hpos : 0 < payload.length := List.length_pos.mpr hp
        cases fuel2 with
        | zero => omega
        | succ g =>
            have hd1 : (payload.drop SECTOR_LENGTH).length ≤ f := by
              simp only [List.length_drop, SECTOR_LENGTH]; omega
            have hd2 : (payload.drop SECTOR_LENGTH).length ≤ g := by
              simp only [List.length_drop, SECTOR_LENGTH]; omega
            simp only [decryptLoop1, if_neg hp]
            split
            · rfl
            · rw [ih g _ _ _ hd1 hd2]

theorem decrypt_file_data_nil (B : CryptoBackend) (xtsKey : List Nat)
    (fileLength : Int) (sector : Nat) (byteOffset : Int) :
    decrypt_file_data B xtsKey fileLength [] sector byteOffset = ([], []) := rfl

theorem decrypt_file_data_cons (B : CryptoBackend) (xtsKey : List Nat)
    (fileLength : Int) (payload : List Nat) (sector : Nat) (byteOffset : Int)
    (hp : payload ≠ []) :
    decrypt_file_data B xtsKey fileLength payload sector byteOffset =
      (if byteOffset + (SECTOR_LENGTH : Int) > fileLength then
        ((B.xtsDecrypt xtsKey (toBytesLE sector 16) (payload.take SECTOR_LENGTH)).take
            (fileLength % (SECTOR_LENGTH : Int)).toNat,
          [(toBytesLE sector 16, payload.take SECTOR_LENGTH)])
      else
        let r := decrypt_file_data B xtsKey fileLength (payload.drop SECTOR_LENGTH)
          (sector + 1) (byteOffset + (SECTOR_LENGTH : Int))
        (B.xtsDecrypt xtsKey (toBytesLE sector 16) (payload.take SECTOR_LENGTH) ++ r.1,
          (toBytesLE sector 16, payload.take SECTOR_LENGTH) :: r.2)) := by
  have hpos : 0 < payload.length := List.length_pos.mpr hp
  unfold decrypt_file_data
  obtain ⟨n, hn⟩ : ∃ n, payload.length = n + 1 := ⟨payload.length - 1, by omega⟩
  rw [hn]
  simp only [decryptLoop1, if_neg hp]
  split
  · rfl
  · rw [decryptLoop1_fuel B xtsKey fileLength n (payload.drop SECTOR_LENGTH).length
      (payload.drop SECTOR_LENGTH) (sector + 1) (byteOffset + (SECTOR_LENGTH : Int))
      (by simp only [List.length_drop, SECTOR_LENGTH]; omega) (le_refl _)]

theorem decryptLoop2_fuel (B : CryptoBackend) (xtsKey : List Nat) (fileLength : Int) :
    ∀ fuel1 fuel2 payload sector bytesProcessed,
      payload.length ≤ fuel1 → payload.length ≤ fuel2 →
      decryptLoop2 B xtsKey fileLength fuel1 payload sector bytesProcessed =
        decryptLoop2 B xtsKey fileLength fuel2 payload sector bytesProcessed := by
  intro fuel1
  induction fuel1 with
  | zero =>
      intro fuel2 payload sector bytesProcessed h1 h2
      have hp : payload = [] := List.length_eq_zero.mp (Nat.le_zero.mp h1)
      subst hp
      cases fuel2 <;> simp [decryptLoop2]
  | succ f ih =>
      intro fuel2 payload sector bytesProcessed h1 h2
      by_cases hp : payload = []
      · subst hp; cases fuel2 <;> simp [decryptLoop2]
      · have hpos : 0 < payload.length := List.length_pos.mpr hp
        cases fuel2 with
        | zero => omega
        | succ g =>
            have hd1 : (payload.drop SECTOR_LENGTH).length ≤ f := by
              simp only [List.length_drop, SECTOR_LENGTH]; omega
            have hd2 : (payload.drop SECTOR_LENGTH).length ≤ g := by
              simp only [List.length_drop, SECTOR_LENGTH]; omega
            simp only [decryptLoop2, if_neg hp]
            split
            · split
              · rfl
              · rw [ih g _ _ _ hd1 hd2]
            · rfl

theorem decrypt_content_stop (B : CryptoBackend) (xtsKey : List Nat)
    (fileLength : Int) (payload : List Nat) (sector : Nat) (bytesProcessed : Int)
    (h : ¬ bytesProcessed < fileLength) :
    decrypt_content B xtsKey fileLength payload sector bytesProcessed = ([], []) := by
  unfold decrypt_content
  cases payload with
  | nil => rfl
  | cons a l => simp only [decryptLoop2, List.length_cons, if_neg h]

theorem decrypt_content_nil (B : CryptoBackend) (xtsKey : List Nat)
    (fileLength : Int) (sector : Nat) (bytesProcessed : Int) :
    decrypt_content B xtsKey fileLength [] sector bytesProcessed = ([], []) := rfl

theorem decrypt_content_cons (B : CryptoBackend) (xtsKey : List Nat)
    (fileLength : Int) (payload : List Nat) (sector : Nat) (bytesProcessed : Int)
    (hp : payload ≠ []) (hlt : bytesProcessed < fileLength) :
    decrypt_content B xtsKey fileLength payload sector bytesProcessed =
      (if fileLength - bytesProcessed < (SECTOR_LENGTH : Int) then
        ((B.xtsDecrypt xtsKey (toBytesLE sector 16) (payload.take SECTOR_LENGTH)).take
            (fileLength - bytesProcessed).toNat,
          [(toBytesLE sector 16, payload.take SECTOR_LENGTH)])
      else
        let r := decrypt_content B xtsKey fileLength (payload.drop SECTOR_LENGTH)
          (sector + 1) (bytesProcessed + (SECTOR_LENGTH : Int))
        (B.xtsDecrypt xtsKey (toBytesLE sector 16) (payload.take SECTOR_LENGTH) ++ r.1,
          (toBytesLE sector 16, payload.take SECTOR_LENGTH) :: r.2)) := by
  have hpos : 0 < payload.length := List.length_pos.mpr hp
  unfold decrypt_content
  obtain ⟨n, hn⟩ : ∃ n, payload.length = n + 1 := ⟨payload.length - 1, by omega⟩
  rw [hn]
  simp only [decryptLoop2, if_pos hlt, if_neg hp]
  split
  · rfl
  · rw [decryptLoop2_fuel B xtsKey fileLength n (payload.drop SECTOR_LENGTH).length
      (payload.drop SECTOR_LENGTH) (sector + 1) (bytesProcessed + (SECTOR_LENGTH : Int))
      (by simp only [List.length_drop, SECTOR_LENGTH]; omega) (le_refl _)]

theorem decryptLoop3_fuel (B : CryptoBackend) (xtsKey : List Nat) (fileLength : Int) :
    ∀ fuel1 fuel2 payload sector bytesWritten,
      payload.length ≤ fuel1 → payload.length ≤ fuel2 →
      decryptLoop3 B xtsKey fileLength fuel1 payload sector bytesWritten =
        decryptLoop3 B xtsKey fileLength fuel2 payload sector bytesWritten := by
  intro fuel1
  induction fuel1 with
  | zero =>
      intro fuel2 payload sector bytesWritten h1 h2
      have hp : payload = [] := List.length_eq_zero.mp (Nat.le_zero.mp h1)
      subst hp
      cases fuel2 <;> simp [decryptLoop3]
  | succ f ih =>
      intro fuel2 payload sector bytesWritten h1 h2
      by_cases hp : payload = []
      · subst hp; cases fuel2 <;> simp [decryptLoop3]
      · have hpos : 0 < payload.length := List.length_pos.mpr hp
        cases fuel2 with
        | zero => omega
        | succ g =>
            have hd1 : (payload.drop SECTOR_LENGTH).length ≤ f := by
              simp only [List.length_drop, SECTOR_LENGTH]; omega
            have hd2 : (payload.drop SECTOR_LENGTH).length ≤ g := by
              simp only [List.length_drop, SECTOR_LENGTH]; omega
            simp only [decryptLoop3, if_neg hp]
            split
            · rw [ih g _ _ _ hd1 hd2]
            · rfl

theorem decrypt_file_data_src_stop (B : CryptoBackend) (xtsKey : List Nat)
    (fileLength : Int) (payload : List Nat) (sector : Nat) (bytesWritten : Int)
    (h : ¬ bytesWritten < fileLength) :
    decrypt_file_data_src B xtsKey fileLength payload sector bytesWritten = ([], []) := by
  unfold decrypt_file_data_src
  cases payload with
  | nil => rfl
  | cons a l => simp only [decryptLoop3, List.length_cons, if_neg h]

theorem decrypt_file_data_src_nil (B : CryptoBackend) (xtsKey : List Nat)
    (fileLength : Int) (sector : Nat) (bytesWritten : Int) :
    decrypt_file_data_src B xtsKey fileLength [] sector bytesWritten = ([], []) := rfl

theorem decrypt_file_data_src_cons (B : CryptoBackend) (xtsKey : List Nat)
    (fileLength : Int) (payload : List Nat) (sector : Nat) (bytesWritten : Int)
    (hp : payload ≠ []) (hlt : bytesWritten < fileLength) :
    decrypt_file_data_src B xtsKey fileLength payload sector bytesWritten =
      (let decryptedChunk := B.xtsDecrypt xtsKey (toBytesLE sector 16) (payload.take SECTOR_LENGTH)
      let bytesToWrite := min (decryptedChunk.length : Int) (fileLength - bytesWritten)
      let r := decrypt_file_data_src B xtsKey fileLength (payload.drop SECTOR_LENGTH)
        (sector + 1) (bytesWritten + bytesToWrite)
      (decryptedChunk.take bytesToWrite.toNat ++ r.1,
        (toBytesLE sector 16, payload.take SECTOR_LENGTH) :: r.2)) := by
  have hpos : 0 < payload.length := List.length_pos.mpr hp
  unfold decrypt_file_data_src
  obtain ⟨n, hn⟩ : ∃ n, payload.length = n + 1 := ⟨payload.length - 1, by omega⟩
  rw [hn]
  simp only [decryptLoop3, if_pos hlt, if_neg hp]
  rw [decryptLoop3_fuel B xtsKey fileLength n (payload.drop SECTOR_LENGTH).length
    (payload.drop SECTOR_LENGTH) (sector + 1) _
    (by simp only [List.length_drop, SECTOR_LENGTH]; omega) (le_refl _)]

theorem sectorsFromAux_fuel (B : CryptoBackend) (xtsKey : List Nat) :
    ∀ fuel1 fuel2 payload sector,
      payload.length ≤ fuel1 → payload.length ≤ fuel2 →
      sectorsFromAux B xtsKey fuel1 payload sector =
        sectorsFromAux B xtsKey fuel2 payload sector := by
  intro fuel1
  induction fuel1 with
  | zero =>
      intro fuel2 payload sector h1 h2
      have hp : payload = [] := List.length_eq_zero.mp (Nat.le_zero.mp h1)
      subst hp
      cases fuel2 <;> simp [sectorsFromAux]
  | succ f ih =>
      intro fuel2 payload sector h1 h2
      by_cases hp : payload = []
      · subst hp; cases fuel2 <;> simp [sectorsFromAux]
      · have hpos : 0 < payload.length := List.length_pos.mpr hp
        cases fuel2 with
        | zero => omega
        | succ g =>
            simp only [sectorsFromAux, if_neg hp]
            rw [ih g _ _ (by simp only [List.length_drop, SECTOR_LENGTH]; omega)
              (by simp only [List.length_drop, SECTOR_LENGTH]; omega)]

theorem sectorsDecryptFrom_nil (B : CryptoBackend) (xtsKey : List Nat) (sector : Nat) :
    sectorsDecryptFrom B xtsKey [] sector = [] := rfl

theorem sectorsDecryptFrom_cons (B : CryptoBackend) (xtsKey : List Nat)
    (payload : List Nat) (sector : Nat) (hp : payload ≠ []) :
    sectorsDecryptFrom B xtsKey payload sector =
      B.xtsDecrypt xtsKey (toBytesLE sector 16) (payload.take SECTOR_LENGTH) ++
        sectorsDecryptFrom B xtsKey (payload.drop SECTOR_LENGTH) (sector + 1) := by
  have hpos : 0 < payload.length := List.length_pos.mpr hp
  unfold sectorsDecryptFrom
  obtain ⟨n, hn⟩ : ∃ n, payload.length = n + 1 := ⟨payload.length - 1, by omega⟩
  rw [hn]
  simp only [sectorsFromAux, if_neg hp]
  rw [sectorsFromAux_fuel B xtsKey n (payload.drop SECTOR_LENGTH).length
    (payload.drop SECTOR_LENGTH) (sector + 1)
    (by simp only [List.length_drop, SECTOR_LENGTH]; omega) (le_refl _)]

theorem SECTOR_LENGTH_eq : SECTOR_LENGTH = 512 := rfl

theorem sectorsFromAux_length (B : CryptoBackend) (xtsKey : List Nat)
    (hxts : ∀ t c, (B.xtsDecrypt xtsKey t c).length = c.length) :
    ∀ fuel payload sector, payload.length ≤ fuel →
      (sectorsFromAux B xtsKey fuel payload sector).length = payload.length := by
  intro fuel
  induction fuel with
  | zero =>
      intro payload sector h
      have hp : payload = [] := List.length_eq_zero.mp (Nat.le_zero.mp h)
      subst hp; rfl
  | succ f ih =>
      intro payload sector h
      by_cases hp : payload = []
      · subst hp; rfl
      · have hpos : 0 < payload.length := List.length_pos.mpr hp
        simp only [sectorsFromAux, if_neg hp, List.length_append, hxts,
          List.length_take, List.length_drop]
        rw [ih _ (sector + 1) (by simp only [List.length_drop, SECTOR_LENGTH]; omega)]
        simp only [List.length_drop, SECTOR_LENGTH_eq]
        omega

theorem sectorsDecryptFrom_length (B : CryptoBackend) (xtsKey : List Nat)
    (hxts : ∀ t c, (B.xtsDecrypt xtsKey t c).length = c.length)
    (payload : List Nat) (sector : Nat) :
    (sectorsDecryptFrom B xtsKey payload sector).length = payload.length :=
  sectorsFromAux_length B xtsKey hxts payload.length payload sector (le_refl _)

theorem loop1_take (B : CryptoBackend) (xtsKey : List Nat)
    (hxts : ∀ t c, (B.xtsDecrypt xtsKey t c).length = c.length) :
    ∀ (N : Nat) (payload : List Nat) (sector : Nat) (byteOffset fileLength : Int) (k : Nat),
      payload.length = N * 512 →
      fileLength - byteOffset = ((N * 512 : Nat) : Int) - (k : Int) →
      k < 512 → k ≤ N * 512 → 0 ≤ byteOffset → byteOffset % 512 = 0 →
      (decrypt_file_data B xtsKey fileLength payload sector byteOffset).1 =
        (sectorsDecryptFrom B xtsKey payload sector).take (N * 512 - k) := by
  intro N
  induction N with
  | zero =>
      intro payload sector byteOffset fileLength k hlen hfl hk hkN hge hmod
      have hp : payload = [] := List.length_eq_zero.mp (by simpa using hlen)
      have hk0 : k = 0 := by omega
      subst hp hk0
      simp [decrypt_file_data_nil, sectorsDecryptFrom_nil]
  | succ N ih =>
      intro payload sector byteOffset fileLength k hlen hfl hk hkN hge hmod
      have hp : payload ≠ [] := by
        intro h; rw [h] at hlen; simp at hlen
      have hchunklen : (payload.take SECTOR_LENGTH).length = 512 := by
        simp only [List.length_take, SECTOR_LENGTH_eq, hlen]; omega
      have hdeclen :
          (B.xtsDecrypt xtsKey (toBytesLE sector 16) (payload.take SECTOR_LENGTH)).length = 512 := by
        rw [hxts]; exact hchunklen
      have hfl' : fileLength - byteOffset = ((N : Int) + 1) * 512 - (k : Int) := by
        push_cast at hfl; linarith
      rw [decrypt_file_data_cons B xtsKey fileLength payload sector byteOffset hp,
        sectorsDecryptFrom_cons B xtsKey payload sector hp]
      by_cases hc : byteOffset + (SECTOR_LENGTH : Int) > fileLength
      · rw [if_pos hc]
        simp only [SECTOR_LENGTH_eq] at hc
        push_cast at hc
        have hN0 : N = 0 := by nlinarith [hfl', hc, hk, hkN]
        subst hN0
        push_cast at hfl'
        have hkpos : 0 < k := by omega
        have hmodval : (fileLength % (SECTOR_LENGTH : Int)).toNat = 512 - k := by
          simp only [SECTOR_LENGTH_eq]
          omega
        rw [hmodval,
          List.take_append_of_le_length (by rw [hdeclen]; omega)]
      · rw [if_neg hc]
        simp only [SECTOR_LENGTH_eq] at hc
        push_cast at hc
        have hkN' : k ≤ N * 512 := by nlinarith [hfl', hc, hk]
        have hlen' : (payload.drop SECTOR_LENGTH).length = N * 512 := by
          simp only [List.length_drop, SECTOR_LENGTH_eq, hlen]; omega
        have hrec := ih (payload.drop SECTOR_LENGTH) (sector + 1)
          (byteOffset + (SECTOR_LENGTH : Int)) fileLength k hlen'
          (by simp only [SECTOR_LENGTH_eq]; push_cast; linarith [hfl'])
          hk hkN' (by simp only [SECTOR_LENGTH_eq]; omega)
          (by simp only [SECTOR_LENGTH_eq]; omega)
        simp only [hrec]
        have harith : (N + 1) * 512 - k = 512 + (N * 512 - k) := by omega
        rw [harith, ← hdeclen, List.take_append]

theorem loop2_take (B : CryptoBackend) (xtsKey : List Nat)
    (hxts : ∀ t c, (B.xtsDecrypt xtsKey t c).length = c.length) :
    ∀ (N : Nat) (payload : List Nat) (sector : Nat) (bytesProcessed fileLength : Int) (k : Nat),
      payload.length = N * 512 →
      fileLength - bytesProcessed = ((N * 512 : Nat) : Int) - (k : Int) →
      k < 512 → k ≤ N * 512 →
      (decrypt_content B xtsKey fileLength payload sector bytesProcessed).1 =
        (sectorsDecryptFrom B xtsKey payload sector).take (N * 512 - k) := by
  intro N
  induction N with
  | zero =>
      intro payload sector bytesProcessed fileLength k hlen hfl hk hkN
      have hp : payload = [] := List.length_eq_zero.mp (by simpa using hlen)
      subst hp
      simp [decrypt_content_nil, sectorsDecryptFrom_nil]
  | succ N ih =>
      intro payload sector bytesProcessed fileLength k hlen hfl hk hkN
      have hp : payload ≠ [] := by intro h; rw [h] at hlen; simp at hlen
      have hchunklen : (payload.take SECTOR_LENGTH).length = 512 := by
        simp only [List.length_take, SECTOR_LENGTH_eq, hlen]; omega
      have hdeclen :
          (B.xtsDecrypt xtsKey (toBytesLE sector 16) (payload.take SECTOR_LENGTH)).length = 512 := by
        rw [hxts]; exact hchunklen
      have hlt : bytesProcessed < fileLength := by omega
      rw [decrypt_content_cons B xtsKey fileLength payload sector bytesProcessed hp hlt,
        sectorsDecryptFrom_cons B xtsKey payload sector hp]
      by_cases hc : fileLength - bytesProcessed < (SECTOR_LENGTH : Int)
      · rw [if_pos hc]
        simp only [SECTOR_LENGTH_eq] at hc
        have hN0 : N = 0 := by omega
        subst hN0
        have htoNat : (fileLength - bytesProcessed).toNat = 512 - k := by omega
        rw [htoNat, List.take_append_of_le_length (by rw [hdeclen]; omega)]
      · rw [if_neg hc]
        simp only [SECTOR_LENGTH_eq] at hc
        have hkN' : k ≤ N * 512 := by omega
        have hlen' : (payload.drop SECTOR_LENGTH).length = N * 512 := by
          simp only [List.length_drop, SECTOR_LENGTH_eq, hlen]; omega
        have hrec := ih (payload.drop SECTOR_LENGTH) (sector + 1)
          (bytesProcessed + (SECTOR_LENGTH : Int)) fileLength k hlen'
          (by simp only [SECTOR_LENGTH_eq]; push_cast; push_cast at hfl; linarith)
          hk hkN'
        simp only [hrec]
        have harith : (N + 1) * 512 - k = 512 + (N * 512 - k) := by omega
        rw [harith, ← hdeclen, List.take_append]

theorem loop3_take (B : CryptoBackend) (xtsKey : List Nat)
    (hxts : ∀ t c, (B.xtsDecrypt xtsKey t c).length = c.length) :
    ∀ (N : Nat) (payload : List Nat) (sector : Nat) (bytesWritten fileLength : Int) (k : Nat),
      payload.length = N * 512 →
      fileLength - bytesWritten = ((N * 512 : Nat) : Int) - (k : Int) →
      k < 512 → k ≤ N * 512 →
      (decrypt_file_data_src B xtsKey fileLength payload sector bytesWritten).1 =
        (sectorsDecryptFrom B xtsKey payload sector).take (N * 512 - k) := by
  intro N
  induction N with
  | zero =>
      intro payload sector bytesWritten fileLength k hlen hfl hk hkN
      have hp : payload = [] := List.length_eq_zero.mp (by simpa using hlen)
      subst hp
      simp [decrypt_file_data_src_nil, sectorsDecryptFrom_nil]
  | succ N ih =>
      intro payload sector bytesWritten fileLength k hlen hfl hk hkN
      have hp : payload ≠ [] := by intro h; rw [h] at hlen; simp at hlen
      have hchunklen : (payload.take SECTOR_LENGTH).length = 512 := by
        simp only [List.length_take, SECTOR_LENGTH_eq, hlen]; omega
      have hdeclen :
          (B.xtsDecrypt xtsKey (toBytesLE sector 16) (payload.take SECTOR_LENGTH)).length = 512 := by
        rw [hxts]; exact hchunklen
      have hlt : bytesWritten < fileLength := by omega
      rw [decrypt_file_data_src_cons B xtsKey fileLength payload sector bytesWritten hp hlt,
        sectorsDecryptFrom_cons B xtsKey payload sector hp]
      simp only [hdeclen]
      by_cases hkcase : k ≤ N * 512
      · have hmin : min ((512 : Nat) : Int) (fileLength - bytesWritten) = (512 : Int) := by
          omega
        rw [hmin]
        have hlen' : (payload.drop SECTOR_LENGTH).length = N * 512 := by
          simp only [List.length_drop, SECTOR_LENGTH_eq, hlen]; omega
        have hrec := ih (payload.drop SECTOR_LENGTH) (sector + 1)
          (bytesWritten + (512 : Int)) fileLength k hlen'
          (by push_cast; push_cast at hfl; linarith) hk hkcase
        simp only [hrec]
        have htoNat : ((512 : Int)).toNat = 512 := rfl
        have harith : (N + 1) * 512 - k = 512 + (N * 512 - k) := by omega
        rw [htoNat, harith, ← hdeclen, List.take_length, List.take_append]
      · have hN0 : N = 0 := by omega
        subst hN0
        have hkpos : 0 < k := by omega
        have hmin : min ((512 : Nat) : Int) (fileLength - bytesWritten) =
            fileLength - bytesWritten := by omega
        rw [hmin]
        have hlen' : (payload.drop SECTOR_LENGTH).length = 0 * 512 := by
          simp only [List.length_drop, SECTOR_LENGTH_eq, hlen]
        have hrec := ih (payload.drop SECTOR_LENGTH) (sector + 1)
          (bytesWritten + (fileLength - bytesWritten)) fileLength 0 hlen'
          (by push_cast; linarith) (by omega) (by omega)
        simp only [hrec]
        have htoNat : (fileLength - bytesWritten).toNat = 512 - k := by omega
        rw [htoNat]
        simp only [Nat.zero_mul, Nat.sub_zero, List.take_zero, List.append_nil]
        rw [List.take_append_of_le_length (by rw [hdeclen]; omega)]

/-- A concrete backend used to evaluate the model on closed inputs: XTS
decryption is the identity on the sector bytes (length-preserving, as the
real cipher is), hashes return fixed-length outputs, AES-GCM accepts and
returns a fixed 80-byte sub-header. -/
def identityBackend : CryptoBackend where
  pbkdf2HmacSha512 := fun _ _ _ n => List.replicate n 0
  sha512 := fun _ => List.replicate 64 0
  aesgcmDecrypt := fun _ _ _ => some (List.replicate 80 1)
  xtsDecrypt := fun _ _ c => c

/-- A concrete backend whose AES-GCM decryption always reports InvalidTag,
modelling a wrong password. -/
def rejectingBackend : CryptoBackend where
  pbkdf2HmacSha512 := fun _ _ _ n => List.replicate n 0
  sha512 := fun _ => List.replicate 64 0
  aesgcmDecrypt := fun _ _ _ => none
  xtsDecrypt := fun _ _ c => c

/-- Claim C1: for a payload of exactly N full 512-byte sectors and
plaintext_length = N*512 - k with 0 <= k < 512, each of the three sector
decryption loops (AESDecryptor.decrypt_file_data of aesdecryptor.py,
AESDecryptor._decrypt_content of aes_decryptor.py, and
AESDecryptor._decrypt_file_data of src/aes_decryptor.py) emits exactly the
first plaintext_length bytes of the sector-wise decrypted stream: every
sector before the final one whole, the last k bytes of the final decrypted
sector discarded, and the total output length is exactly plaintext_length. -/
theorem C1_sector_loops_emit_exact_plaintext_length
    (B : CryptoBackend) (xtsKey payload : List Nat) (N k : Nat)
    (hxts : ∀ t c, (B.xtsDecrypt xtsKey t c).length = c.length)
    (hlen : payload.length = N * 512) (hk : k < 512) (hkN : k ≤ N * 512) :
    ((decrypt_file_data B xtsKey (((N * 512 : Nat) : Int) - (k : Int)) payload 0 0).1 =
        (sectorsDecryptFrom B xtsKey payload 0).take (N * 512 - k) ∧
      (decrypt_file_data B xtsKey (((N * 512 : Nat) : Int) - (k : Int)) payload 0 0).1.length =
        N * 512 - k) ∧
    ((decrypt_content B xtsKey (((N * 512 : Nat) : Int) - (k : Int)) payload 0 0).1 =
        (sectorsDecryptFrom B xtsKey payload 0).take (N * 512 - k) ∧
      (decrypt_content B xtsKey (((N * 512 : Nat) : Int) - (k : Int)) payload 0 0).1.length =
        N * 512 - k) ∧
    ((decrypt_file_data_src B xtsKey (((N * 512 : Nat) : Int) - (k : Int)) payload 0 0).1 =
        (sectorsDecryptFrom B xtsKey payload 0).take (N * 512 - k) ∧
      (decrypt_file_data_src B xtsKey (((N * 512 : Nat) : Int) - (k : Int)) payload 0 0).1.length =
        N * 512 - k) := by
  have hfl : (((N * 512 : Nat) : Int) - (k : Int)) - 0 = ((N * 512 : Nat) : Int) - (k : Int) := by
    omega
  have htakelen :
      ((sectorsDecryptFrom B xtsKey payload 0).take (N * 512 - k)).length = N * 512 - k := by
    rw [List.length_take, sectorsDecryptFrom_length B xtsKey hxts, hlen]
    omega
  have h1 := loop1_take B xtsKey hxts N payload 0 0
    (((N * 512 : Nat) : Int) - (k : Int)) k hlen hfl hk hkN (le_refl 0) rfl
  have h2 := loop2_take B xtsKey hxts N payload 0 0
    (((N * 512 : Nat) : Int) - (k : Int)) k hlen hfl hk hkN
  have h3 := loop3_take B xtsKey hxts N payload 0 0
    (((N * 512 : Nat) : Int) - (k : Int)) k hlen hfl hk hkN
  exact ⟨⟨h1, by rw [h1, htakelen]⟩, ⟨h2, by rw [h2, htakelen]⟩, ⟨h3, by rw [h3, htakelen]⟩⟩

/-- Witness for C1: a payload of one full sector (512 bytes) with
plaintext_length 511 (k = 1), under the identity XTS backend. -/
theorem C1_sector_loops_emit_exact_plaintext_length_witness :
    (List.replicate 512 3).length = 1 * 512 ∧
    (((decrypt_file_data identityBackend [] (((1 * 512 : Nat) : Int) - (1 : Int))
          (List.replicate 512 3) 0 0).1 =
        (sectorsDecryptFrom identityBackend [] (List.replicate 512 3) 0).take (1 * 512 - 1) ∧
      (decrypt_file_data identityBackend [] (((1 * 512 : Nat) : Int) - (1 : Int))
          (List.replicate 512 3) 0 0).1.length = 1 * 512 - 1) ∧
    ((decrypt_content identityBackend [] (((1 * 512 : Nat) : Int) - (1 : Int))
          (List.replicate 512 3) 0 0).1 =
        (sectorsDecryptFrom identityBackend [] (List.replicate 512 3) 0).take (1 * 512 - 1) ∧
      (decrypt_content identityBackend [] (((1 * 512 : Nat) : Int) - (1 : Int))
          (List.replicate 512 3) 0 0).1.length = 1 * 512 - 1) ∧
    ((decrypt_file_data_src identityBackend [] (((1 * 512 : Nat) : Int) - (1 : Int))
          (List.replicate 512 3) 0 0).1 =
        (sectorsDecryptFrom identityBackend [] (List.replicate 512 3) 0).take (1 * 512 - 1) ∧
      (decrypt_file_data_src identityBackend [] (((1 * 512 : Nat) : Int) - (1 : Int))
          (List.replicate 512 3) 0 0).1.length = 1 * 512 - 1)) :=
  ⟨by rw [List.length_replicate],
   C1_sector_loops_emit_exact_plaintext_length identityBackend [] (List.replicate 512 3) 1 1
     (fun _ _ => rfl) (by rw [List.length_replicate]) (by decide) (by decide)⟩

/-! ### Tweak traces: the j-th cipher invocation of each loop uses the
little-endian encoding of sector index start+j and the j-th 512-byte slice
of the payload. -/

theorem loop1_trace (B : CryptoBackend) (xtsKey : List Nat) :
    ∀ (j : Nat) (payload : List Nat) (sector : Nat) (byteOffset fileLength : Int),
      j < (decrypt_file_data B xtsKey fileLength payload sector byteOffset).2.length →
      (decrypt_file_data B xtsKey fileLength payload sector byteOffset).2.get? j =
        some (toBytesLE (sector + j) 16, (payload.drop (512 * j)).take 512) := by
  intro j
  induction j with
  | zero =>
      intro payload sector byteOffset fileLength h
      by_cases hp : payload = []
      · subst hp; rw [decrypt_file_data_nil] at h; simp at h
      · rw [decrypt_file_data_cons B xtsKey fileLength payload sector byteOffset hp]
        split
        · simp [SECTOR_LENGTH_eq]
        · simp [SECTOR_LENGTH_eq]
  | succ j ih =>
      intro payload sector byteOffset fileLength h
      by_cases hp : payload = []
      · subst hp; rw [decrypt_file_data_nil] at h; simp at h
      · rw [decrypt_file_data_cons B xtsKey fileLength payload sector byteOffset hp] at h ⊢
        by_cases hc : byteOffset + (SECTOR_LENGTH : Int) > fileLength
        · rw [if_pos hc] at h; simp at h
        · rw [if_neg hc] at h ⊢
          simp only [List.length_cons, Nat.succ_lt_succ_iff] at h
          simp only [List.get?_cons_succ]
          rw [ih _ (sector + 1) _ _ h, List.drop_drop]
          have h1 : sector + 1 + j = sector + (j + 1) := by omega
          have h2 : SECTOR_LENGTH + 512 * j = 512 * (j + 1) := by
            simp only [SECTOR_LENGTH_eq]; omega
          rw [h1, h2]

theorem loop2_trace (B : CryptoBackend) (xtsKey : List Nat) :
    ∀ (j : Nat) (payload : List Nat) (sector : Nat) (bytesProcessed fileLength : Int),
      j < (decrypt_content B xtsKey fileLength payload sector bytesProcessed).2.length →
      (decrypt_content B xtsKey fileLength payload sector bytesProcessed).2.get? j =
        some (toBytesLE (sector + j) 16, (payload.drop (512 * j)).take 512) := by
  intro j
  induction j with
  | zero =>
      intro payload sector bytesProcessed fileLength h
      by_cases hlt : bytesProcessed < fileLength
      · by_cases hp : payload = []
        · subst hp; rw [decrypt_content_nil] at h; simp at h
        · rw [decrypt_content_cons B xtsKey fileLength payload sector bytesProcessed hp hlt]
          split
          · simp [SECTOR_LENGTH_eq]
          · simp [SECTOR_LENGTH_eq]
      · rw [decrypt_content_stop B xtsKey fileLength payload sector bytesProcessed hlt] at h
        simp at h
  | succ j ih =>
      intro payload sector bytesProcessed fileLength h
      by_cases hlt : bytesProcessed < fileLength
      · by_cases hp : payload = []
        · subst hp; rw [decrypt_content_nil] at h; simp at h
        · rw [decrypt_content_cons B xtsKey fileLength payload sector bytesProcessed hp hlt] at h ⊢
          by_cases hc : fileLength - bytesProcessed < (SECTOR_LENGTH : Int)
          · rw [if_pos hc] at h; simp at h
          · rw [if_neg hc] at h ⊢
            simp only [List.length_cons, Nat.succ_lt_succ_iff] at h
            simp only [List.get?_cons_succ]
            rw [ih _ (sector + 1) _ _ h, List.drop_drop]
            have h1 : sector + 1 + j = sector + (j + 1) := by omega
            have h2 : SECTOR_LENGTH + 512 * j = 512 * (j + 1) := by
              simp only [SECTOR_LENGTH_eq]; omega
            rw [h1, h2]
      · rw [decrypt_content_stop B xtsKey fileLength payload sector bytesProcessed hlt] at h
        simp at h

theorem loop3_trace (B : CryptoBackend) (xtsKey : List Nat) :
    ∀ (j : Nat) (payload : List Nat) (sector : Nat) (bytesWritten fileLength : Int),
      j < (decrypt_file_data_src B xtsKey fileLength payload sector bytesWritten).2.length →
      (decrypt_file_data_src B xtsKey fileLength payload sector bytesWritten).2.get? j =
        some (toBytesLE (sector + j) 16, (payload.drop (512 * j)).take 512) := by
  intro j
  induction j with
  | zero =>
      intro payload sector bytesWritten fileLength h
      by_cases hlt : bytesWritten < fileLength
      · by_cases hp : payload = []
        · subst hp; rw [decrypt_file_data_src_nil] at h; simp at h
        · rw [decrypt_file_data_src_cons B xtsKey fileLength payload sector bytesWritten hp hlt]
          simp [SECTOR_LENGTH_eq]
      · rw [decrypt_file_data_src_stop B xtsKey fileLength payload sector bytesWritten hlt] at h
        simp at h
  | succ j ih =>
      intro payload sector bytesWritten fileLength h
      by_cases hlt : bytesWritten < fileLength
      · by_cases hp : payload = []
        · subst hp; rw [decrypt_file_data_src_nil] at h; simp at h
        · rw [decrypt_file_data_src_cons B xtsKey fileLength payload sector bytesWritten hp hlt] at h ⊢
          simp only [List.length_cons, Nat.succ_lt_succ_iff] at h
          simp only [List.get?_cons_succ]
          rw [ih _ (sector + 1) _ _ h, List.drop_drop]
          have h1 : sector + 1 + j = sector + (j + 1) := by omega
          have h2 : SECTOR_LENGTH + 512 * j = 512 * (j + 1) := by
            simp only [SECTOR_LENGTH_eq]; omega
          rw [h1, h2]
      · rw [decrypt_file_data_src_stop B xtsKey fileLength payload sector bytesWritten hlt] at h
        simp at h

/-- Claim C2: in each of the three sector decryption loops, started at
sector counter 0 as the orchestrators do, the j-th cipher invocation
decrypts the j-th 512-byte sector of the payload using the 16-byte tweak
equal to the little-endian encoding of j; the counter thus increases by
exactly 1 per sector, in strictly increasing order 0, 1, 2, .... -/
theorem C2_sector_tweaks_little_endian_increasing
    (B : CryptoBackend) (xtsKey payload : List Nat) (fileLength : Int) (j : Nat) :
    (j < (decrypt_file_data B xtsKey fileLength payload 0 0).2.length →
      (decrypt_file_data B xtsKey fileLength payload 0 0).2.get? j =
        some (toBytesLE j 16, (payload.drop (512 * j)).take 512)) ∧
    (j < (decrypt_content B xtsKey fileLength payload 0 0).2.length →
      (decrypt_content B xtsKey fileLength payload 0 0).2.get? j =
        some (toBytesLE j 16, (payload.drop (512 * j)).take 512)) ∧
    (j < (decrypt_file_data_src B xtsKey fileLength payload 0 0).2.length →
      (decrypt_file_data_src B xtsKey fileLength payload 0 0).2.get? j =
        some (toBytesLE j 16, (payload.drop (512 * j)).take 512)) := by
  refine ⟨fun h => ?_, fun h => ?_, fun h => ?_⟩
  · have := loop1_trace B xtsKey j payload 0 0 fileLength h
    simpa using this
  · have := loop2_trace B xtsKey j payload 0 0 fileLength h
    simpa using this
  · have := loop3_trace B xtsKey j payload 0 0 fileLength h
    simpa using this

/-- Witness for C2: a two-sector payload, second invocation (j = 1) uses
tweak 1 (little-endian) on bytes [512:1024]. -/
theorem C2_sector_tweaks_little_endian_increasing_witness :
    ((decrypt_file_data identityBackend [] 1024 (List.replicate 1024 5) 0 0).2.get? 1 =
      some (toBytesLE 1 16, ((List.replicate 1024 5).drop (512 * 1)).take 512)) ∧
    ((decrypt_content identityBackend [] 1024 (List.replicate 1024 5) 0 0).2.get? 1 =
      some (toBytesLE 1 16, ((List.replicate 1024 5).drop (512 * 1)).take 512)) ∧
    ((decrypt_file_data_src identityBackend [] 1024 (List.replicate 1024 5) 0 0).2.get? 1 =
      some (toBytesLE 1 16, ((List.replicate 1024 5).drop (512 * 1)).take 512)) := by
  obtain ⟨h1, h2, h3⟩ :=
    C2_sector_tweaks_little_endian_increasing identityBackend [] (List.replicate 1024 5) 1024 1
  exact ⟨h1 (by decide), h2 (by decide), h3 (by decide)⟩

/-- Claim C3: stage-1 key derivation computes a 64-byte digest as SHA-512 of
file_salt ++ PBKDF2-HMAC-SHA512(password, global_salt, iterations, 32) —
salt first in the concatenation — and returns header_key = digest[0:32] and
iv = digest[32:44]; the source translation derive_keys coincides with the
spec-side deriveHeaderKeyAndIV_spec, and when the hash primitive produces 64
bytes the header key has 32 bytes and the IV 12 bytes. -/
theorem C3_derive_keys_matches_spec
    (B : CryptoBackend) (password globalSalt fileSalt : List Nat) (iterations : Nat)
    (hpos : 0 < iterations)
    (hsha : (B.sha512 (fileSalt ++ B.pbkdf2HmacSha512 password globalSalt iterations 32)).length = 64) :
    derive_keys B password globalSalt fileSalt iterations =
        deriveHeaderKeyAndIV_spec B password globalSalt fileSalt iterations ∧
    (derive_keys B password globalSalt fileSalt iterations).1 =
      (B.sha512 (fileSalt ++ B.pbkdf2HmacSha512 password globalSalt iterations 32)).take 32 ∧
    (derive_keys B password globalSalt fileSalt iterations).2 =
      ((B.sha512 (fileSalt ++ B.pbkdf2HmacSha512 password globalSalt iterations 32)).drop 32).take 12 ∧
    (derive_keys B password globalSalt fileSalt iterations).1.length = 32 ∧
    (derive_keys B password globalSalt fileSalt iterations).2.length = 12 := by
  refine ⟨rfl, by simp [derive_keys, slice], by simp [derive_keys, slice], ?_, ?_⟩
  · simp [derive_keys, slice, List.length_take, hsha]
  · simp [derive_keys, slice, List.length_take, List.length_drop, hsha]

/-- Witness for C3: concrete backend, password, salts and one iteration. -/
theorem C3_derive_keys_matches_spec_witness :
    0 < 1 ∧
    (derive_keys identityBackend [97] [1] [2] 1 =
        deriveHeaderKeyAndIV_spec identityBackend [97] [1] [2] 1 ∧
      (derive_keys identityBackend [97] [1] [2] 1).1 =
        (identityBackend.sha512 ([2] ++ identityBackend.pbkdf2HmacSha512 [97] [1] 1 32)).take 32 ∧
      (derive_keys identityBackend [97] [1] [2] 1).2 =
        ((identityBackend.sha512 ([2] ++ identityBackend.pbkdf2HmacSha512 [97] [1] 1 32)).drop 32).take 12 ∧
      (derive_keys identityBackend [97] [1] [2] 1).1.length = 32 ∧
      (derive_keys identityBackend [97] [1] [2] 1).2.length = 12) :=
  ⟨by decide,
   C3_derive_keys_matches_spec identityBackend [97] [1] [2] 1 (by decide) (by decide)⟩

/-! ### Header parsing facts. -/

theorem hexDigit_inj {a b : Nat} (ha : a < 16) (hb : b < 16)
    (h : hexDigit a = hexDigit b) : a = b := by
  unfold hexDigit at h
  split at h <;> split at h <;> omega

theorem hexlify_inj : ∀ (a b : List Nat), (∀ x ∈ a, x < 256) → (∀ x ∈ b, x < 256) →
    hexlify a = hexlify b → a = b := by
  intro a
  induction a with
  | nil =>
      intro b _ _ h
      cases b with
      | nil => rfl
      | cons y ys => simp [hexlify] at h
  | cons x xs ih =>
      intro b ha hb h
      cases b with
      | nil => simp [hexlify] at h
      | cons y ys =>
          simp only [hexlify, List.foldr_cons, List.cons.injEq] at h
          obtain ⟨h1, h2, h3⟩ := h
          have hx : x < 256 := ha x (List.mem_cons_self x xs)
          have hy : y < 256 := hb y (List.mem_cons_self y ys)
          have e1 := hexDigit_inj (by omega) (by omega) h1
          have e2 := hexDigit_inj (by omega) (by omega) h2
          have hxy : x = y := by omega
          have htail := ih ys (fun z hz => ha z (List.mem_cons_of_mem _ hz))
            (fun z hz => hb z (List.mem_cons_of_mem _ hz)) h3
          rw [hxy, htail]

theorem toBytesLE_lt : ∀ (len n : Nat), ∀ x ∈ toBytesLE n len, x < 256 := by
  intro len
  induction len with
  | zero => intro n x hx; simp [toBytesLE] at hx
  | succ l ih =>
      intro n x hx
      simp only [toBytesLE, List.mem_cons] at hx
      rcases hx with h | h
      · omega
      · exact ih (n / 256) x h

theorem toBytesBE_lt (n len : Nat) : ∀ x ∈ toBytesBE n len, x < 256 := by
  intro x hx
  exact toBytesLE_lt len n x (List.mem_reverse.mp hx)

theorem utf8Decode_magic : utf8Decode [65, 69, 83, 68] = some [65, 69, 83, 68] := rfl

theorem parseHeader_ok (h : List Nat) (hlen : h.length = 144)
    (hmagic : h.take 4 = [65, 69, 83, 68])
    (hcrc : slice 12 16 h = toBytesBE (crc32 (h.take 12 ++ [0, 0, 0, 0] ++ h.drop 16)) 4) :
    parseHeader h = .ok
      { fileType := [65, 69, 83, 68]
        fileTypeVersion := h.getD 4 0
        reserved1 := slice 5 12 h
        crc32ChecksumHex := hexlify (slice 12 16 h)
        globalSalt := slice 16 32 h
        fileSalt := slice 32 48 h
        aesGcmHeader := slice 48 128 h
        aesGcmAuthTag := slice 128 144 h } := by
  unfold parseHeader
  rw [hmagic, utf8Decode_magic, hcrc]
  simp [hlen, magicCodepoints]

theorem parseHeader_checksumMismatch (h : List Nat) (hlen : h.length = 144)
    (hbytes : ∀ b ∈ h, b < 256)
    (hmagic : h.take 4 = [65, 69, 83, 68])
    (hcrc : slice 12 16 h ≠ toBytesBE (crc32 (h.take 12 ++ [0, 0, 0, 0] ++ h.drop 16)) 4) :
    parseHeader h = .error .checksumMismatch := by
  have hslicebytes : ∀ x ∈ slice 12 16 h, x < 256 := by
    intro x hx
    exact hbytes x (List.mem_of_mem_drop (List.mem_of_mem_take hx))
  have hne : hexlify (toBytesBE (crc32 (h.take 12 ++ [0, 0, 0, 0] ++ h.drop 16)) 4) ≠
      hexlify (slice 12 16 h) := by
    intro he
    exact hcrc (hexlify_inj _ _ hslicebytes
      (toBytesBE_lt (crc32 (h.take 12 ++ [0, 0, 0, 0] ++ h.drop 16)) 4) he.symm)
  unfold parseHeader
  rw [hmagic, utf8Decode_magic]
  simp [hlen, magicCodepoints]
  simpa using hne

/-! ### Concrete CRC-32 values, evaluated in 16-byte chunks so that kernel
reduction stays shallow. -/

theorem crc32_fold_chunk (s v1 v2 : Nat) (l1 l2 : List Nat)
    (h1 : List.foldl crc32Byte s l1 = v1) (h2 : List.foldl crc32Byte v1 l2 = v2) :
    List.foldl crc32Byte s (l1 ++ l2) = v2 := by
  rw [List.foldl_append, h1, h2]

theorem crc32_zeroed_v1 :
    crc32 ([65, 69, 83, 68, 1, 0, 0, 0, 0, 0, 0, 0] ++ [0, 0, 0, 0] ++
      List.replicate 128 0) = 995948215 := by
  have hshape : [65, 69, 83, 68, 1, 0, 0, 0, 0, 0, 0, 0] ++ [0, 0, 0, 0] ++
      List.replicate 128 0 =
      [65, 69, 83, 68, 1, 0, 0, 0, 0, 0, 0, 0, 0, 0, 0, 0] ++
        (List.replicate 16 0 ++ (List.replicate 16 0 ++ (List.replicate 16 0 ++
          (List.replicate 16 0 ++ (List.replicate 16 0 ++ (List.replicate 16 0 ++
            (List.replicate 16 0 ++ List.replicate 16 0))))))) := by decide
  have h0 : List.foldl crc32Byte 4294967295
      [65, 69, 83, 68, 1, 0, 0, 0, 0, 0, 0, 0, 0, 0, 0, 0] = 3621080867 := by decide
  have h1 : List.foldl crc32Byte 3621080867 (List.replicate 16 0) = 1422666051 := by decide
  have h2 : List.foldl crc32Byte 1422666051 (List.replicate 16 0) = 3624779552 := by decide
  have h3 : List.foldl crc32Byte 3624779552 (List.replicate 16 0) = 2240698586 := by decide
  have h4 : List.foldl crc32Byte 2240698586 (List.replicate 16 0) = 3567950703 := by decide
  have h5 : List.foldl crc32Byte 3567950703 (List.replicate 16 0) = 2529367782 := by decide
  have h6 : List.foldl crc32Byte 2529367782 (List.replicate 16 0) = 1519789042 := by decide
  have h7 : List.foldl crc32Byte 1519789042 (List.replicate 16 0) = 3008751110 := by decide
  have h8 : List.foldl crc32Byte 3008751110 (List.replicate 16 0) = 3299019080 := by decide
  unfold crc32
  rw [hshape, List.foldl_append, h0, List.foldl_append, h1, List.foldl_append, h2,
    List.foldl_append, h3, List.foldl_append, h4, List.foldl_append, h5,
    List.foldl_append, h6, List.foldl_append, h7, h8]
  decide

theorem crc32_zeroed_v2 :
    crc32 ([65, 69, 83, 68, 2, 0, 0, 0, 0, 0, 0, 0] ++ [0, 0, 0, 0] ++
      List.replicate 128 0) = 2369059804 := by
  have hshape : [65, 69, 83, 68, 2, 0, 0, 0, 0, 0, 0, 0] ++ [0, 0, 0, 0] ++
      List.replicate 128 0 =
      [65, 69, 83, 68, 2, 0, 0, 0, 0, 0, 0, 0, 0, 0, 0, 0] ++
        (List.replicate 16 0 ++ (List.replicate 16 0 ++ (List.replicate 16 0 ++
          (List.replicate 16 0 ++ (List.replicate 16 0 ++ (List.replicate 16 0 ++
            (List.replicate 16 0 ++ List.replicate 16 0))))))) := by decide
  have h0 : List.foldl crc32Byte 4294967295
      [65, 69, 83, 68, 2, 0, 0, 0, 0, 0, 0, 0, 0, 0, 0, 0] = 2689310163 := by decide
  have h1 : List.foldl crc32Byte 2689310163 (List.replicate 16 0) = 1444032100 := by decide
  have h2 : List.foldl crc32Byte 1444032100 (List.replicate 16 0) = 2792748934 := by decide
  have h3 : List.foldl crc32Byte 2792748934 (List.replicate 16 0) = 25939210 := by decide
  have h4 : List.foldl crc32Byte 25939210 (List.replicate 16 0) = 2635877996 := by decide
  have h5 : List.foldl crc32Byte 2635877996 (List.replicate 16 0) = 2800579509 := by decide
  have h6 : List.foldl crc32Byte 2800579509 (List.replicate 16 0) = 3409470587 := by decide
  have h7 : List.foldl crc32Byte 3409470587 (List.replicate 16 0) = 794749369 := by decide
  have h8 : List.foldl crc32Byte 794749369 (List.replicate 16 0) = 1925907491 := by decide
  unfold crc32
  rw [hshape, List.foldl_append, h0, List.foldl_append, h1, List.foldl_append, h2,
    List.foldl_append, h3, List.foldl_append, h4, List.foldl_append, h5,
    List.foldl_append, h6, List.foldl_append, h7, h8]
  decide

/-- A concrete valid 144-byte header: magic "AESD", version 1, correct CRC32
checksum bytes [59, 92, 246, 183] (CRC below 2^31), zero salts and zero
encrypted sub-header. -/
def validHeader : List Nat :=
  [65, 69, 83, 68, 1, 0, 0, 0, 0, 0, 0, 0] ++ [59, 92, 246, 183] ++ List.replicate 128 0

/-- A concrete valid 144-byte header whose correct CRC32 value 2369059804 has
the top bit set: magic "AESD", version 2, checksum bytes [141, 52, 251, 220],
zero salts and zero encrypted sub-header. -/
def validHeaderHighCrc : List Nat :=
  [65, 69, 83, 68, 2, 0, 0, 0, 0, 0, 0, 0] ++ [141, 52, 251, 220] ++ List.replicate 128 0

/-- A concrete 144-byte header with correct magic but a zeroed (wrong)
checksum field. -/
def badChecksumHeader : List Nat :=
  [65, 69, 83, 68, 1, 0, 0, 0, 0, 0, 0, 0] ++ [0, 0, 0, 0] ++ List.replicate 128 0

theorem parseHeaderSrc_checksum_fail (h : List Nat) (v : Nat) (hlen : h.length = 144)
    (hmagic : h.take 4 = [65, 69, 83, 68])
    (hv : crc32 (h.take 12 ++ [0, 0, 0, 0] ++ h.drop 16) = v)
    (hne : (v : Int) ≠ beBytesToIntSigned (slice 12 16 h)) :
    parseHeaderSrc h = .error .checksumMismatch := by
  unfold parseHeaderSrc
  rw [hmagic, utf8Decode_magic]
  simp only [List.append_assoc, List.cons_append, List.nil_append] at hv
  simp [hlen, magicCodepoints, hv, hne]

/-- Claim C4: for every 144-byte header with the expected magic whose
checksum field at [12:16] equals the CRC32 of the header with that field
zeroed, AESDataFile parsing (res/aes_date_file.py) succeeds and returns
every field at its exact offset. The conjunct about validHeaderHighCrc
documents the bug this claim exposes in the duplicate parser of
src/aes_decryptor.py (src subdirectory): its _verify_checksum reads the
stored field with signed=True, so it rejects this valid header, whose CRC32
has the top bit set, with a checksum error. -/
theorem C4_header_parse_roundtrip_and_src_signed_bug :
    (∀ h : List Nat, h.length = 144 → h.take 4 = [65, 69, 83, 68] →
      slice 12 16 h = toBytesBE (crc32 (h.take 12 ++ [0, 0, 0, 0] ++ h.drop 16)) 4 →
      parseHeader h = .ok
        { fileType := [65, 69, 83, 68]
          fileTypeVersion := h.getD 4 0
          reserved1 := slice 5 12 h
          crc32ChecksumHex := hexlify (slice 12 16 h)
          globalSalt := slice 16 32 h
          fileSalt := slice 32 48 h
          aesGcmHeader := slice 48 128 h
          aesGcmAuthTag := slice 128 144 h }) ∧
    slice 12 16 validHeaderHighCrc =
      toBytesBE (crc32 (validHeaderHighCrc.take 12 ++ [0, 0, 0, 0] ++
        validHeaderHighCrc.drop 16)) 4 ∧
    2 ^ 31 ≤ crc32 (validHeaderHighCrc.take 12 ++ [0, 0, 0, 0] ++
      validHeaderHighCrc.drop 16) ∧
    parseHeaderSrc validHeaderHighCrc = .error .checksumMismatch := by
  have hz2 : validHeaderHighCrc.take 12 ++ [0, 0, 0, 0] ++ validHeaderHighCrc.drop 16 =
      [65, 69, 83, 68, 2, 0, 0, 0, 0, 0, 0, 0] ++ [0, 0, 0, 0] ++ List.replicate 128 0 := by
    decide
  refine ⟨fun h h1 h2 h3 => parseHeader_ok h h1 h2 h3, ?_, ?_, ?_⟩
  · rw [hz2, crc32_zeroed_v2]; decide
  · rw [hz2, crc32_zeroed_v2]; decide
  · exact parseHeaderSrc_checksum_fail validHeaderHighCrc 2369059804 (by decide) (by decide)
      (by rw [hz2]; exact crc32_zeroed_v2) (by decide)

/-- Witness for C4: the universal parsing statement applied to the concrete
valid header validHeaderHighCrc. -/
theorem C4_header_parse_roundtrip_and_src_signed_bug_witness :
    parseHeader validHeaderHighCrc = .ok
      { fileType := [65, 69, 83, 68]
        fileTypeVersion := validHeaderHighCrc.getD 4 0
        reserved1 := slice 5 12 validHeaderHighCrc
        crc32ChecksumHex := hexlify (slice 12 16 validHeaderHighCrc)
        globalSalt := slice 16 32 validHeaderHighCrc
        fileSalt := slice 32 48 validHeaderHighCrc
        aesGcmHeader := slice 48 128 validHeaderHighCrc
        aesGcmAuthTag := slice 128 144 validHeaderHighCrc } := by
  have hz2 : validHeaderHighCrc.take 12 ++ [0, 0, 0, 0] ++ validHeaderHighCrc.drop 16 =
      [65, 69, 83, 68, 2, 0, 0, 0, 0, 0, 0, 0] ++ [0, 0, 0, 0] ++ List.replicate 128 0 := by
    decide
  exact C4_header_parse_roundtrip_and_src_signed_bug.1 validHeaderHighCrc
    (by decide) (by decide) (by rw [hz2, crc32_zeroed_v2]; decide)

/-- Claim C8: for every 144-byte header of bytes with correct magic whose
checksum field does not equal the CRC32 of the header with that field
zeroed, AESDataFile parsing fails with checksumMismatch — and, the result
being that single error value, with no other error kind. -/
theorem C8_corrupted_checksum_fails_with_checksumMismatch
    (h : List Nat) (hlen : h.length = 144) (hbytes : ∀ b ∈ h, b < 256)
    (hmagic : h.take 4 = [65, 69, 83, 68])
    (hcrc : slice 12 16 h ≠ toBytesBE (crc32 (h.take 12 ++ [0, 0, 0, 0] ++ h.drop 16)) 4) :
    parseHeader h = .error .checksumMismatch :=
  parseHeader_checksumMismatch h hlen hbytes hmagic hcrc

/-- Witness for C8: the concrete header with zeroed checksum field. -/
theorem C8_corrupted_checksum_fails_with_checksumMismatch_witness :
    parseHeader badChecksumHeader = .error .checksumMismatch := by
  have hz : badChecksumHeader.take 12 ++ [0, 0, 0, 0] ++ badChecksumHeader.drop 16 =
      [65, 69, 83, 68, 1, 0, 0, 0, 0, 0, 0, 0] ++ [0, 0, 0, 0] ++ List.replicate 128 0 := by
    decide
  exact C8_corrupted_checksum_fails_with_checksumMismatch badChecksumHeader
    (by decide) (by decide) (by decide)
    (by rw [hz, crc32_zeroed_v1]; decide)

/-- Claim C10: a 144-byte input whose first byte is 0xFF (not valid UTF-8)
makes header parsing fail with the UnicodeDecodeError outcome — an exception
outside the module's structured error type — rather than the badMagic format
error; and the magic comparison (the badMagic outcome) is reached only for
inputs whose first 4 bytes decode as UTF-8. -/
theorem C10_invalid_utf8_magic_raises_unicode_error :
    (∀ rest : List Nat, rest.length = 143 →
      parseHeader (255 :: rest) = .error .unicodeDecodeError) ∧
    (∀ h : List Nat, parseHeader h = .error .badMagic →
      (utf8Decode (h.take 4)).isSome = true) := by
  constructor
  · intro rest hrest
    have hlen : (255 :: rest).length = 144 := by simp [hrest]
    have htake : (255 :: rest).take 4 = 255 :: rest.take 3 := rfl
    have hdec : utf8Decode (255 :: rest.take 3) = none := by
      rcases h1 : rest.take 3 with _ | ⟨b1, l1⟩
      · rfl
      · rcases l1 with _ | ⟨b2, l2⟩
        · rfl
        · rcases l2 with _ | ⟨b3, l3⟩ <;> rfl
    unfold parseHeader
    rw [htake, hdec]
    simp [hlen]
  · intro h hbm
    unfold parseHeader at hbm
    by_cases hl : h.length ≠ 144
    · rw [if_pos hl] at hbm; simp at hbm
    · rw [if_neg hl] at hbm
      cases hdec : utf8Decode (h.take 4) with
      | none => rw [hdec] at hbm; simp at hbm
      | some ft => rfl

/-- Witness for C10: the concrete input 0xFF followed by 143 zero bytes, and
a concrete all-sevens header that reaches the magic comparison. -/
theorem C10_invalid_utf8_magic_raises_unicode_error_witness :
    parseHeader (255 :: List.replicate 143 0) = .error .unicodeDecodeError ∧
    (utf8Decode ((List.replicate 144 7).take 4)).isSome = true :=
  ⟨C10_invalid_utf8_magic_raises_unicode_error.1 (List.replicate 143 0)
     (by rw [List.length_replicate]),
   C10_invalid_utf8_magic_raises_unicode_error.2 (List.replicate 144 7) rfl⟩

/-! ### Pipeline inversion: what a successful decrypt_file run consists of. -/

theorem decrypt_file_ok_elim (B : CryptoBackend) (fileBytes password : List Nat)
    (r : DecryptResult) (hok : decrypt_file B fileBytes password = .ok r) :
    ∃ dataFile decryptedHeader,
      parseHeader (fileBytes.take HEADER_LENGTH) = .ok dataFile ∧
      B.aesgcmDecrypt
        (derive_keys B password dataFile.globalSalt dataFile.fileSalt KDF_ITERATIONS).1
        (derive_keys B password dataFile.globalSalt dataFile.fileSalt KDF_ITERATIONS).2
        (dataFile.aesGcmHeader ++ dataFile.aesGcmAuthTag) = some decryptedHeader ∧
      r = { subHeader := decryptedHeader
            paddingLength := beBytesToNat (slice 0 2 decryptedHeader)
            fileLength := (fileBytes.length : Int) - (HEADER_LENGTH : Int) -
              (beBytesToNat (slice 0 2 decryptedHeader) : Int)
            plaintext := (decrypt_file_data B
              (slice 16 48 decryptedHeader ++ slice 48 80 decryptedHeader)
              ((fileBytes.length : Int) - (HEADER_LENGTH : Int) -
                (beBytesToNat (slice 0 2 decryptedHeader) : Int))
              (fileBytes.drop HEADER_LENGTH) 0 0).1 } := by
  unfold decrypt_file at hok
  dsimp only at hok
  split at hok
  · simp at hok
  · next dataFile hparse =>
      split at hok
      · simp at hok
      · next decryptedHeader hgcm =>
          simp only [Except.ok.injEq] at hok
          subst hok
          exact ⟨dataFile, decryptedHeader, hparse, hgcm, rfl⟩

/-- Claim C5: whenever decrypt_file (aesdecryptor.py) succeeds, the expected
plaintext length it passes to sector decryption equals the total file size
minus 144 (the header length) minus the padding length taken from the
decrypted sub-header, and the emitted plaintext is exactly the sector loop's
output for that length. -/
theorem C5_file_length_is_size_minus_header_minus_padding
    (B : CryptoBackend) (fileBytes password : List Nat) (r : DecryptResult)
    (hok : decrypt_file B fileBytes password = .ok r) :
    r.fileLength = (fileBytes.length : Int) - 144 - (r.paddingLength : Int) ∧
    r.paddingLength = beBytesToNat (slice 0 2 r.subHeader) ∧
    r.plaintext = (decrypt_file_data B
      (slice 16 48 r.subHeader ++ slice 48 80 r.subHeader) r.fileLength
      (fileBytes.drop 144) 0 0).1 := by
  obtain ⟨dataFile, decryptedHeader, _, _, hr⟩ :=
    decrypt_file_ok_elim B fileBytes password r hok
  subst hr
  exact ⟨rfl, rfl, rfl⟩

/-- A concrete encrypted file: the valid version-1 header followed by one
512-byte payload sector. -/
def sampleFile : List Nat := validHeader ++ List.replicate 512 9

/-- The password bytes used in the concrete runs. -/
def samplePassword : List Nat := [1, 2, 3]

/-- The result decrypt_file computes on sampleFile under identityBackend:
the fixed 80-byte sub-header of ones declares padding 0x0101 = 257, so
file_length = 656 - 144 - 257 = 255 and 255 payload bytes are emitted. -/
def sampleResult : DecryptResult :=
  { subHeader := List.replicate 80 1
    paddingLength := 257
    fileLength := 255
    plaintext := List.replicate 255 9 }

theorem sample_decrypt_file_ok :
    decrypt_file identityBackend sampleFile samplePassword = .ok sampleResult := by
  have hz : validHeader.take 12 ++ [0, 0, 0, 0] ++ validHeader.drop 16 =
      [65, 69, 83, 68, 1, 0, 0, 0, 0, 0, 0, 0] ++ [0, 0, 0, 0] ++ List.replicate 128 0 := by
    decide
  have hparse := parseHeader_ok validHeader (by decide) (by decide)
    (by rw [hz, crc32_zeroed_v1]; decide)
  unfold decrypt_file
  rw [show sampleFile.take HEADER_LENGTH = validHeader from by decide]
  dsimp only
  rw [hparse]
  rfl

/-- Witness for C5: the concrete successful run on sampleFile. -/
theorem C5_file_length_is_size_minus_header_minus_padding_witness :
    decrypt_file identityBackend sampleFile samplePassword = .ok sampleResult ∧
    (sampleResult.fileLength =
        (sampleFile.length : Int) - 144 - (sampleResult.paddingLength : Int) ∧
      sampleResult.paddingLength = beBytesToNat (slice 0 2 sampleResult.subHeader) ∧
      sampleResult.plaintext = (decrypt_file_data identityBackend
        (slice 16 48 sampleResult.subHeader ++ slice 48 80 sampleResult.subHeader)
        sampleResult.fileLength (sampleFile.drop 144) 0 0).1) :=
  ⟨sample_decrypt_file_ok,
   C5_file_length_is_size_minus_header_minus_padding identityBackend sampleFile
     samplePassword sampleResult sample_decrypt_file_ok⟩

/-- Claim C6: sub-header decryption is AES-GCM with no associated data over
the 80-byte ciphertext concatenated with the 16-byte tag; it fails with the
distinct InvalidTag wrong-password error exactly when the tag does not
verify; on success it yields padding_length as the big-endian 16-bit integer
at [0:2] and the two 32-byte sub-keys at [16:48] and [48:80] (64 bytes
concatenated when the sub-header has its 80 bytes); and a pipeline run can
succeed only when the tag verified on exactly the returned sub-header, so a
wrong password never produces silently wrong plaintext output. -/
theorem C6_subheader_gcm_invalid_tag_iff_and_parse :
    (∀ (B : CryptoBackend) (headerKey iv gcmHeader gcmTag : List Nat),
      decrypt_header B headerKey iv gcmHeader gcmTag = .error .invalidTag ↔
        B.aesgcmDecrypt headerKey iv (gcmHeader ++ gcmTag) = none) ∧
    (∀ (B : CryptoBackend) (headerKey iv gcmHeader gcmTag decryptedHeader : List Nat),
      decrypt_header B headerKey iv gcmHeader gcmTag = .ok decryptedHeader →
        B.aesgcmDecrypt headerKey iv (gcmHeader ++ gcmTag) = some decryptedHeader ∧
        parse_decrypted_header decryptedHeader =
          (beBytesToNat (slice 0 2 decryptedHeader),
            slice 16 48 decryptedHeader, slice 48 80 decryptedHeader)) ∧
    (∀ decryptedHeader : List Nat, decryptedHeader.length = 80 →
      (slice 16 48 decryptedHeader ++ slice 48 80 decryptedHeader).length = 64) ∧
    (∀ (B : CryptoBackend) (fileBytes password : List Nat) (r : DecryptResult),
      decrypt_file B fileBytes password = .ok r →
        ∃ dataFile, parseHeader (fileBytes.take 144) = .ok dataFile ∧
          B.aesgcmDecrypt
            (derive_keys B password dataFile.globalSalt dataFile.fileSalt KDF_ITERATIONS).1
            (derive_keys B password dataFile.globalSalt dataFile.fileSalt KDF_ITERATIONS).2
            (dataFile.aesGcmHeader ++ dataFile.aesGcmAuthTag) = some r.subHeader ∧
          r.plaintext = (decrypt_file_data B
            (slice 16 48 r.subHeader ++ slice 48 80 r.subHeader) r.fileLength
            (fileBytes.drop 144) 0 0).1) := by
  refine ⟨?_, ?_, ?_, ?_⟩
  · intro B headerKey iv gcmHeader gcmTag
    cases hg : B.aesgcmDecrypt headerKey iv (gcmHeader ++ gcmTag) with
    | none => simp [decrypt_header, hg]
    | some dh => simp [decrypt_header, hg]
  · intro B headerKey iv gcmHeader gcmTag decryptedHeader hok
    unfold decrypt_header at hok
    cases hg : B.aesgcmDecrypt headerKey iv (gcmHeader ++ gcmTag) with
    | none => rw [hg] at hok; simp at hok
    | some dh =>
        rw [hg] at hok
        simp only [Except.ok.injEq] at hok
        subst hok
        exact ⟨rfl, rfl⟩
  · intro decryptedHeader hlen
    simp only [slice, List.length_append, List.length_take, List.length_drop, hlen]
    omega
  · intro B fileBytes password r hok
    obtain ⟨dataFile, decryptedHeader, hparse, hgcm, hr⟩ :=
      decrypt_file_ok_elim B fileBytes password r hok
    subst hr
    exact ⟨dataFile, hparse, hgcm, rfl⟩

/-- Witness for C6: the InvalidTag outcome under the rejecting backend, the
success outcome under the identity backend, the 64-byte combined key on the
all-ones sub-header, and the concrete successful pipeline run. -/
theorem C6_subheader_gcm_invalid_tag_iff_and_parse_witness :
    decrypt_header rejectingBackend [] [] [] [] = .error .invalidTag ∧
    (rejectingBackend.aesgcmDecrypt [] [] ([] ++ []) = none ∧
      identityBackend.aesgcmDecrypt [] [] ([] ++ []) = some (List.replicate 80 1) ∧
      parse_decrypted_header (List.replicate 80 1) =
        (beBytesToNat (slice 0 2 (List.replicate 80 1)),
          slice 16 48 (List.replicate 80 1), slice 48 80 (List.replicate 80 1))) ∧
    (slice 16 48 (List.replicate 80 1) ++ slice 48 80 (List.replicate 80 1)).length = 64 ∧
    (∃ dataFile, parseHeader (sampleFile.take 144) = .ok dataFile ∧
      identityBackend.aesgcmDecrypt
        (derive_keys identityBackend samplePassword dataFile.globalSalt dataFile.fileSalt
          KDF_ITERATIONS).1
        (derive_keys identityBackend samplePassword dataFile.globalSalt dataFile.fileSalt
          KDF_ITERATIONS).2
        (dataFile.aesGcmHeader ++ dataFile.aesGcmAuthTag) = some sampleResult.subHeader ∧
      sampleResult.plaintext = (decrypt_file_data identityBackend
        (slice 16 48 sampleResult.subHeader ++ slice 48 80 sampleResult.subHeader)
        sampleResult.fileLength (sampleFile.drop 144) 0 0).1) := by
  obtain ⟨h1, h2, h3, h4⟩ := C6_subheader_gcm_invalid_tag_iff_and_parse
  refine ⟨(h1 rejectingBackend [] [] [] []).mpr rfl, ⟨rfl, ?_⟩, ?_, ?_⟩
  · exact (h2 identityBackend [] [] [] [] (List.replicate 80 1) rfl)
  · exact h3 (List.replicate 80 1) (by rw [List.length_replicate])
  · exact h4 identityBackend sampleFile samplePassword sampleResult sample_decrypt_file_ok

/-! ### Truncated payloads: the loops stop silently, no TruncatedPayload
error exists anywhere in the code. -/

theorem decryptLoop1_length_le (B : CryptoBackend) (xtsKey : List Nat)
    (hxts : ∀ t c, (B.xtsDecrypt xtsKey t c).length = c.length) (fileLength : Int) :
    ∀ fuel payload sector byteOffset,
      (decryptLoop1 B xtsKey fileLength fuel payload sector byteOffset).1.length ≤
        payload.length := by
  intro fuel
  induction fuel with
  | zero => intro payload sector byteOffset; simp [decryptLoop1]
  | succ f ih =>
      intro payload sector byteOffset
      by_cases hp : payload = []
      · subst hp; simp [decryptLoop1]
      · simp only [decryptLoop1, if_neg hp]
        split
        · simp only [List.length_take, hxts]
          omega
        · have hrec := ih (payload.drop SECTOR_LENGTH) (sector + 1)
            (byteOffset + (SECTOR_LENGTH : Int))
          simp only [List.length_append, hxts, List.length_take]
          simp only [List.length_drop] at hrec
          omega

theorem decryptLoop2_length_le (B : CryptoBackend) (xtsKey : List Nat)
    (hxts : ∀ t c, (B.xtsDecrypt xtsKey t c).length = c.length) (fileLength : Int) :
    ∀ fuel payload sector bytesProcessed,
      (decryptLoop2 B xtsKey fileLength fuel payload sector bytesProcessed).1.length ≤
        payload.length := by
  intro fuel
  induction fuel with
  | zero => intro payload sector bytesProcessed; simp [decryptLoop2]
  | succ f ih =>
      intro payload sector bytesProcessed
      by_cases hlt : bytesProcessed < fileLength
      · by_cases hp : payload = []
        · subst hp; simp [decryptLoop2]
        · simp only [decryptLoop2, if_pos hlt, if_neg hp]
          split
          · simp only [List.length_take, hxts]
            omega
          · have hrec := ih (payload.drop SECTOR_LENGTH) (sector + 1)
              (bytesProcessed + (SECTOR_LENGTH : Int))
            simp only [List.length_append, hxts, List.length_take]
            simp only [List.length_drop] at hrec
            omega
      · simp [decryptLoop2, if_neg hlt]

theorem decryptLoop3_length_le (B : CryptoBackend) (xtsKey : List Nat)
    (hxts : ∀ t c, (B.xtsDecrypt xtsKey t c).length = c.length) (fileLength : Int) :
    ∀ fuel payload sector bytesWritten,
      (decryptLoop3 B xtsKey fileLength fuel payload sector bytesWritten).1.length ≤
        payload.length := by
  intro fuel
  induction fuel with
  | zero => intro payload sector bytesWritten; simp [decryptLoop3]
  | succ f ih =>
      intro payload sector bytesWritten
      by_cases hlt : bytesWritten < fileLength
      · by_cases hp : payload = []
        · subst hp; simp [decryptLoop3]
        · simp only [decryptLoop3, if_pos hlt, if_neg hp]
          have hrec := ih (payload.drop SECTOR_LENGTH) (sector + 1)
            (bytesWritten + min ((B.xtsDecrypt xtsKey (toBytesLE sector 16)
              (payload.take SECTOR_LENGTH)).length : Int) (fileLength - bytesWritten))
          simp only [List.length_append, List.length_take, hxts]
          simp only [List.length_drop, List.length_take, hxts] at hrec
          omega
      · simp [decryptLoop3, if_neg hlt]

/-- Counterexample for C7: with plaintext_length = 512 demanded and an
already-exhausted payload stream, each of the three sector decryption loops
returns normally — an empty output and empty cipher trace, not an error —
and the pipeline's error type has no TruncatedPayload kind at all, only the
format errors and InvalidTag. -/
theorem C7_truncated_payload_returns_short_output_counterexample :
    decrypt_file_data identityBackend [] 512 [] 0 0 = ([], []) ∧
    decrypt_content identityBackend [] 512 [] 0 0 = ([], []) ∧
    decrypt_file_data_src identityBackend [] 512 [] 0 0 = ([], []) ∧
    (decrypt_file_data identityBackend [] 512 [] 0 0).1.length = 0 ∧
    (∀ e : DecryptError, e = .invalidTag ∨ ∃ pe : ParseError, e = .format pe) :=
  ⟨rfl, rfl, rfl, rfl, fun e => by cases e with
    | format pe => exact Or.inr ⟨pe, rfl⟩
    | invalidTag => exact Or.inl rfl⟩

/-- Claim C7 as amended: when the payload stream supplies fewer bytes than
plaintext_length demands, each sector decryption loop terminates normally,
emitting only the bytes decrypted so far — never more than the payload
supplies — and raises no error; no TruncatedPayload error exists in the
code. -/
theorem C7_amended_loops_emit_at_most_available
    (B : CryptoBackend) (xtsKey : List Nat)
    (hxts : ∀ t c, (B.xtsDecrypt xtsKey t c).length = c.length)
    (fileLength : Int) (payload : List Nat) (sector : Nat) (byteOffset : Int) :
    (decrypt_file_data B xtsKey fileLength payload sector byteOffset).1.length ≤
      payload.length ∧
    (decrypt_content B xtsKey fileLength payload sector byteOffset).1.length ≤
      payload.length ∧
    (decrypt_file_data_src B xtsKey fileLength payload sector byteOffset).1.length ≤
      payload.length :=
  ⟨decryptLoop1_length_le B xtsKey hxts fileLength payload.length payload sector byteOffset,
   decryptLoop2_length_le B xtsKey hxts fileLength payload.length payload sector byteOffset,
   decryptLoop3_length_le B xtsKey hxts fileLength payload.length payload sector byteOffset⟩

/-- Witness for the amended C7: a 512-byte stream against a demanded
plaintext_length of 1024. -/
theorem C7_amended_loops_emit_at_most_available_witness :
    (decrypt_file_data identityBackend [] 1024 (List.replicate 512 7) 0 0).1.length ≤
      (List.replicate 512 7).length ∧
    (decrypt_content identityBackend [] 1024 (List.replicate 512 7) 0 0).1.length ≤
      (List.replicate 512 7).length ∧
    (decrypt_file_data_src identityBackend [] 1024 (List.replicate 512 7) 0 0).1.length ≤
      (List.replicate 512 7).length :=
  C7_amended_loops_emit_at_most_available identityBackend [] (fun _ _ => rfl) 1024
    (List.replicate 512 7) 0 0

end AESDrive
